import Mathlib

/-
Verification of the oanda-api client library (src/oanda/__init__.py) against
its specification.  The development shallowly embeds the request middleware
(`moderate`), the response envelope (`APIResponse`), the error classifier
(`APIError`), the attribute-addressable mapping (`AttributeDictionary`) and
the session (`Context`) as executable Lean definitions, and proves the
specification's claims about them.

Modelling conventions:
* JSON documents are the inductive `JValue` (JSON numeric literals are
  modelled as integers; no claim depends on fractional response bodies).
* `json.loads` is Python standard library (an external collaborator per the
  spec); a response therefore carries `jsonBody : Option JValue`, the result
  of `json.loads` on its text, with `none` standing for a
  `json.decoder.JSONDecodeError`.
* Python exceptions are the inductive `PyError`; fallible operations return
  `Except PyError _` or pair their result with `Option PyError`.
* Strings are ASCII in all claim-relevant inputs; `str.isidentifier`,
  `str.upper`, `str.lower` are modelled on ASCII.
-/

set_option maxRecDepth 4000
set_option linter.unusedVariables false

namespace Oanda

/-- Python exceptions that the modelled code can raise. -/
inductive PyError where
  | jsonDecodeError
  | attributeError (msg : String)
  | typeError (msg : String)
  | valueError (msg : String)
  | unboundLocalError
deriving DecidableEq, Repr

/-- JSON documents, as produced by `json.loads`. -/
inductive JValue where
  | jnull
  | jbool (b : Bool)
  | jnum (n : Int)
  | jstr (s : String)
  | jarr (xs : List JValue)
  | jobj (kvs : List (String × JValue))

/- The result of wrapping a JSON value through `AttributeDictionary`:
mappings become wrapped dictionaries, sequences keep their elements, where
only elements that were mappings are wrapped (`WElem.wrapped`) and all other
elements pass through untouched (`WElem.raw`), exactly as in
`AttributeDictionary.__setitem__`. -/
mutual
inductive WVal where
  | wnull
  | wbool (b : Bool)
  | wnum (n : Int)
  | wstr (s : String)
  | wlist (xs : List WElem)
  | wdict (kvs : List (String × WVal))
inductive WElem where
  | wrapped (kvs : List (String × WVal))
  | raw (v : JValue)
end

/-- First-match association-list lookup (Python `dict` access / `dict.get`
restricted to the claim-relevant case of string keys). -/
def alistLookup {α : Type} : List (String × α) → String → Option α
  | [], _ => none
  | (k, v) :: rest, key => if k = key then some v else alistLookup rest key

/-- `set(*map(dir, super().__self_class__.__bases__))` in
`AttributeDictionary.__setitem__`, i.e. `dir(dict)` (modern CPython; the
exact dunder inventory is interpreter-version dependent, the structural
names `items`, `keys`, ... are stable). -/
def dictAttrs : List String :=
  ["__class__", "__class_getitem__", "__contains__", "__delattr__",
   "__delitem__", "__dir__", "__doc__", "__eq__", "__format__", "__ge__",
   "__getattribute__", "__getitem__", "__getstate__", "__gt__", "__hash__",
   "__init__", "__init_subclass__", "__ior__", "__iter__", "__le__",
   "__len__", "__lt__", "__ne__", "__new__", "__or__", "__reduce__",
   "__reduce_ex__", "__repr__", "__reversed__", "__ror__", "__setattr__",
   "__setitem__", "__sizeof__", "__str__", "__subclasshook__",
   "clear", "copy", "fromkeys", "get", "items", "keys", "pop", "popitem",
   "setdefault", "update", "values"]

/-- `str.isidentifier` (ASCII model): nonempty, first character a letter or
underscore, remaining characters letters, digits or underscores. -/
def pyIsIdentifier (s : String) : Bool :=
  match s.data with
  | [] => false
  | c :: rest => (c.isAlpha || c == '_') && rest.all (fun d => d.isAlphanum || d == '_')

/-- The key validation performed first in `AttributeDictionary.__setitem__`:
a reserved `dict` attribute name or a non-identifier key raises
`AttributeError` with the corresponding message. -/
def badKeyMsg (k : String) : Option String :=
  if k ∈ dictAttrs then some "key name equal to dict attribute"
  else if !pyIsIdentifier k then some "key name is not a valid identifier"
  else none

/- The recursive wrapping performed by `AttributeDictionary.__init__` /
`__setitem__`: every key of a mapping is validated, mapping values are
wrapped recursively, list values have exactly their `dict`-typed elements
wrapped (one level: nested lists are not recursed into), all other values
pass through untouched. -/
mutual
def wrapValue : JValue → Except PyError WVal
  | .jnull => .ok .wnull
  | .jbool b => .ok (.wbool b)
  | .jnum n => .ok (.wnum n)
  | .jstr s => .ok (.wstr s)
  | .jarr xs => (wrapList xs).map .wlist
  | .jobj kvs => (wrapPairs kvs).map .wdict
def wrapList : List JValue → Except PyError (List WElem)
  | [] => .ok []
  | x :: xs => do
    let e ← wrapElem x
    let es ← wrapList xs
    return e :: es
def wrapElem : JValue → Except PyError WElem
  | .jobj kvs => (wrapPairs kvs).map .wrapped
  | v => .ok (.raw v)
def wrapPairs : List (String × JValue) → Except PyError (List (String × WVal))
  | [] => .ok []
  | (k, v) :: rest =>
    match badKeyMsg k with
    | some m => .error (.attributeError m)
    | none => do
      let w ← wrapValue v
      let ws ← wrapPairs rest
      return (k, w) :: ws
end

/-- `AttributeDictionary(body)`: constructing the wrapper from a parsed JSON
body.  `dict.__init__` requires a mapping, so non-mapping bodies raise
`TypeError` (the corner case of a JSON array of two-element arrays, which
`dict()` would accept, is outside the modelled inputs: the claims only
exercise mapping bodies). -/
def AttributeDictionary.ofJson : JValue → Except PyError WVal
  | .jobj kvs => (wrapPairs kvs).map .wdict
  | _ => .error (.typeError "AttributeDictionary requires a mapping")

/- Reading back the original JSON value from a wrapped value. -/
mutual
def unwrapW : WVal → JValue
  | .wnull => .jnull
  | .wbool b => .jbool b
  | .wnum n => .jnum n
  | .wstr s => .jstr s
  | .wlist xs => .jarr (unwrapList xs)
  | .wdict kvs => .jobj (unwrapPairs kvs)
def unwrapList : List WElem → List JValue
  | [] => []
  | e :: es => unwrapElem e :: unwrapList es
def unwrapElem : WElem → JValue
  | .wrapped kvs => .jobj (unwrapPairs kvs)
  | .raw v => v
def unwrapPairs : List (String × WVal) → List (String × JValue)
  | [] => []
  | (k, w) :: rest => (k, unwrapW w) :: unwrapPairs rest
end

/- Whether the wrapping recursion reaches a reserved or invalid key:
keys of a mapping, keys inside mapping values (recursively), keys inside
mapping elements of list values; all other positions are never inspected. -/
mutual
def hasBadV : JValue → Bool
  | .jarr xs => hasBadL xs
  | .jobj kvs => hasBadO kvs
  | _ => false
def hasBadL : List JValue → Bool
  | [] => false
  | x :: xs => hasBadE x || hasBadL xs
def hasBadE : JValue → Bool
  | .jobj kvs => hasBadO kvs
  | _ => false
def hasBadO : List (String × JValue) → Bool
  | [] => false
  | (k, v) :: rest => (badKeyMsg k).isSome || hasBadV v || hasBadO rest
end

/-- Member access on a constructed `AttributeDictionary`: `__setitem__`
mirrors every stored key into an instance attribute, so attribute access on
a wrapped mapping is lookup of the wrapped value. -/
def WVal.getattr : WVal → String → Option WVal
  | .wdict kvs, k => alistLookup kvs k
  | _, _ => none

def JValue.isObj : JValue → Bool
  | .jobj _ => true
  | _ => false

/- Python `repr` of a parsed JSON value (ASCII model; string escaping
corner cases are outside the claim-relevant inputs).  Used only to build
display strings. -/
mutual
def pyReprJ : JValue → String
  | .jnull => "None"
  | .jbool b => if b then "True" else "False"
  | .jnum n => toString n
  | .jstr s => "\x27" ++ s ++ "\x27"
  | .jarr xs => "[" ++ String.intercalate ", " (pyReprJL xs) ++ "]"
  | .jobj kvs => "\x7b" ++ String.intercalate ", " (pyReprJO kvs) ++ "\x7d"
def pyReprJL : List JValue → List String
  | [] => []
  | x :: xs => pyReprJ x :: pyReprJL xs
def pyReprJO : List (String × JValue) → List String
  | [] => []
  | (k, v) :: rest => ("\x27" ++ k ++ "\x27: " ++ pyReprJ v) :: pyReprJO rest
end

/- Python `repr` of a wrapped value (same display as the underlying dict). -/
mutual
def pyReprW : WVal → String
  | .wnull => "None"
  | .wbool b => if b then "True" else "False"
  | .wnum n => toString n
  | .wstr s => "\x27" ++ s ++ "\x27"
  | .wlist xs => "[" ++ String.intercalate ", " (pyReprL xs) ++ "]"
  | .wdict kvs => "\x7b" ++ String.intercalate ", " (pyReprO kvs) ++ "\x7d"
def pyReprL : List WElem → List String
  | [] => []
  | e :: es => pyReprE e :: pyReprL es
def pyReprE : WElem → String
  | .wrapped kvs => "\x7b" ++ String.intercalate ", " (pyReprO kvs) ++ "\x7d"
  | .raw v => pyReprJ v
def pyReprO : List (String × WVal) → List String
  | [] => []
  | (k, w) :: rest => ("\x27" ++ k ++ "\x27: " ++ pyReprW w) :: pyReprO rest
end

/-- Python `str` of a wrapped value as interpolated into an f-string. -/
def pyStrOfW : WVal → String
  | .wstr s => s
  | w => pyReprW w

/-- `needle in hay` on Python strings: substring containment. -/
def occursChars (needle hay : List Char) : Bool :=
  hay.tails.any (fun t => needle.isPrefixOf t)

def occursStr (needle hay : String) : Bool :=
  occursChars needle.data hay.data

/-- Scanner for `str.replace` with a nonempty search text: the fuel is an
upper bound on the remaining length (the wrapper passes the exact length,
so the zero-fuel arm is never reached on nonempty input). -/
def pyReplaceGo (sub rep : List Char) : Nat → List Char → List Char
  | _, [] => []
  | 0, s => s
  | n + 1, c :: rest =>
    if sub.isPrefixOf (c :: rest) then
      rep ++ pyReplaceGo sub rep n (List.drop sub.length (c :: rest))
    else c :: pyReplaceGo sub rep n rest

/-- Python `str.replace(sub, rep)`: replace every non-overlapping occurrence
of `sub`, scanning left to right.  An empty `sub` interleaves `rep` around
every character, as in CPython. -/
def pyReplace (s sub rep : List Char) : List Char :=
  if sub.isEmpty then rep ++ s.flatMap (fun c => c :: rep)
  else pyReplaceGo sub rep s.length s

/-- Scanner for the `re.sub` of `APIError.clearpath`: pattern
`accounts/([^/]*)(\/|$)`, replacement
`lambda sub: sub.group(0).replace(sub.group(1), '<ACCOUNT>')`.
The scanner walks the path left to right; at each match it emits the whole
match with every occurrence of the captured account segment replaced by the
placeholder, then resumes after the match.  (`$` is modelled as
end-of-string; request paths contain no newline.)  The fuel is an upper
bound on the remaining length, as in `pyReplaceGo`. -/
def redactGo : Nat → List Char → List Char
  | _, [] => []
  | 0, l => l
  | n + 1, c :: rest =>
    if ("accounts/" : String).data.isPrefixOf (c :: rest) then
      let after := List.drop 9 (c :: rest)
      let g1 := after.takeWhile (fun d => d ≠ '/')
      match after.dropWhile (fun d => d ≠ '/') with
      | '/' :: tl =>
        pyReplace (("accounts/" : String).data ++ g1 ++ ['/']) g1
          ("<ACCOUNT>" : String).data ++ redactGo n tl
      | _ =>
        pyReplace (("accounts/" : String).data ++ g1) g1
          ("<ACCOUNT>" : String).data
    else c :: redactGo n rest

def redactSub (l : List Char) : List Char := redactGo l.length l

/-- Remainder of the URL after the first `"://"`, if any (scheme split of
`urllib.parse.urlparse` for the absolute URLs this client builds). -/
def afterScheme : List Char → Option (List Char)
  | [] => none
  | c :: rest =>
    if ("://" : String).data.isPrefixOf (c :: rest) then some (List.drop 2 rest)
    else afterScheme rest

/-- `urlparse(url).path` for the URLs this client produces: drop the scheme
and network location, stop before a query or fragment. -/
def urlPathData (url : List Char) : List Char :=
  match afterScheme url with
  | some rest =>
    (rest.dropWhile (fun c => c ≠ '/')).takeWhile (fun c => c ≠ '?' && c ≠ '#')
  | none => url.takeWhile (fun c => c ≠ '?' && c ≠ '#')

/-- `APIError.path`: `urlparse(self.response.url).path`. -/
def pathOfUrl (url : String) : String := ⟨urlPathData url.data⟩

/-- `APIError.clearpath`: the redacted display path. -/
def clearpathOfUrl (url : String) : String := ⟨redactSub (urlPathData url.data)⟩

/-- The HTTP response as seen by the middleware, after
`APIResponse.convert` (a type reinterpretation that copies nothing).
`jsonBody` is the result of `json.loads` on `text` (the JSON decoder is
Python standard library); `none` models a `json.decoder.JSONDecodeError`.
`method` is `response.request.method`. -/
structure PyResponse where
  status_code : Nat
  url : String
  method : String
  reason : String
  text : String
  jsonBody : Option JValue

/-- `APIResponse.json()` as invoked with the default `nativetypes=False`:
decode the body, then wrap it as an `AttributeDictionary`. -/
def APIResponse.json (r : PyResponse) : Except PyError WVal :=
  match r.jsonBody with
  | none => .error .jsonDecodeError
  | some j => AttributeDictionary.ofJson j

/-- A successfully constructed `APIError`: the original (unredacted)
response envelope, the body attribute (`AttributeDictionary` or raw text),
and the display string passed to `Exception.__init__`. -/
structure APIErrorData where
  response : PyResponse
  body : Sum WVal String
  message : String

/-- `APIError.__init__`.  The `try` block materializes the body and reads
`errorMessage`; only `json.decoder.JSONDecodeError` is caught (falling back
to the raw text and the HTTP reason phrase).  Any other exception from the
`try` block (`AttributeError` for a missing `errorMessage` key or a bad
body key, `TypeError` for a non-mapping body) leaves the local `message`
unbound, so the `finally` block's f-string raises `UnboundLocalError`,
which supersedes the in-flight exception. -/
def apiErrorInit (r : PyResponse) : Except PyError APIErrorData :=
  match r.jsonBody with
  | none =>
    .ok { response := r, body := .inr r.text,
          message := r.method ++ " " ++ clearpathOfUrl r.url ++ ": "
            ++ toString r.status_code ++ " " ++ r.reason }
  | some j =>
    match AttributeDictionary.ofJson j with
    | .error _ => .error .unboundLocalError
    | .ok w =>
      match w.getattr "errorMessage" with
      | none => .error .unboundLocalError
      | some mv =>
        .ok { response := r, body := .inl w,
              message := r.method ++ " " ++ clearpathOfUrl r.url ++ ": "
                ++ toString r.status_code ++ " " ++ pyStrOfW mv }

/-- What a `moderate`-wrapped call returns to the caller. -/
inductive ModResult where
  | body (w : WVal)
  | envelope (r : PyResponse)

/-- The observable outcome of the response half of `moderate`: a returned
value, a raised `APIError`, or some other raised exception. -/
inductive ModOutcome where
  | ok (res : ModResult)
  | raisedAPIError (e : APIErrorData)
  | raisedOther (e : PyError)

/-- Lines 62-67 of `moderate`: classify the response status, then apply the
unwrap policy (`unpack` set and no `stream` in the final URL returns the
materialized body; otherwise the envelope itself). -/
def moderateRespond (unpack : Bool) (r : PyResponse) : ModOutcome :=
  if ¬(r.status_code = 200 ∨ r.status_code = 201) then
    match apiErrorInit r with
    | .ok e => .raisedAPIError e
    | .error pe => .raisedOther pe
  else if unpack && !occursStr "stream" r.url then
    match APIResponse.json r with
    | .ok w => .ok (.body w)
    | .error pe => .raisedOther pe
  else .ok (.envelope r)

/-- One decoded item of a streamed body. -/
inductive LineOut where
  | native (v : JValue)
  | wrapped (w : WVal)

/-- `line.get('type') == 'HEARTBEAT'` on the decoded line's `type` field:
only an equal string compares equal to the Python string literal. -/
def isHeartbeatVal : Option JValue → Bool
  | some (.jstr s) => s == "HEARTBEAT"
  | _ => false

/-- `APIResponse.jsonlines`: each line of the streamed body is decoded
independently (the decoded documents are the input list, `json.loads` being
external); a line is yielded unless `heartbeat` is false and its `type`
field equals `"HEARTBEAT"` (short-circuit: the field is only read when
`heartbeat` is false, and reading it on a non-mapping line raises
`AttributeError`).  Yielded lines are wrapped unless `nativetypes`. -/
def jsonlines (nativetypes heartbeat : Bool) : List JValue → Except PyError (List LineOut)
  | [] => .ok []
  | l :: rest => do
    let keep ← if heartbeat then pure true
      else match l with
        | .jobj kvs => pure (!isHeartbeatVal (alistLookup kvs "type"))
        | _ => Except.error (.attributeError "object has no attribute get")
    if keep then do
      let out ← if nativetypes then pure (LineOut.native l)
        else (AttributeDictionary.ofJson l).map LineOut.wrapped
      let outs ← jsonlines nativetypes heartbeat rest
      return out :: outs
    else jsonlines nativetypes heartbeat rest

/-- Python argument values flowing through `moderate`.  `bool` is a
subclass of `int` in Python, so it is listed with the numeric
constructors; a float is carried by its `str()` text (no claim computes
with float values); `vOther` stands opaquely for any other object. -/
inductive PyVal where
  | vBool (b : Bool)
  | vInt (n : Int)
  | vFloat (txt : String)
  | vStr (s : String)
  | vNone
  | vOther (tag : String)
deriving DecidableEq, Repr

/-- `isinstance(x, (int, float))`: true for `bool` (subclass of `int`),
`int` and `float` values, false for everything else. -/
def PyVal.isNumericInstance : PyVal → Bool
  | .vBool _ => true
  | .vInt _ => true
  | .vFloat _ => true
  | _ => false

/-- Python `str()` on an argument value (`str(True) = 'True'`,
`str(-5) = '-5'`; a float renders as the text it carries). -/
def pyStr : PyVal → String
  | .vBool b => if b then "True" else "False"
  | .vInt n => toString n
  | .vFloat txt => txt
  | .vStr s => s
  | .vNone => "None"
  | .vOther tag => tag

/-- `str(item) if isinstance(item, (int, float)) else item`. -/
def stringifyNum (v : PyVal) : PyVal :=
  if v.isNumericInstance then .vStr (pyStr v) else v

/-- Lines 54-56 of `moderate`: stringify numeric positional arguments. -/
def moderateArgs (args : List PyVal) : List PyVal :=
  args.map stringifyNum

/-- `dict` assignment `d[k] = v`: overwrite in place when the key exists,
else append (Python 3.7+ insertion order). -/
def alistSet {α : Type} (l : List (String × α)) (k : String) (v : α) : List (String × α) :=
  if l.any (fun p => p.1 == k) then l.map (fun p => if p.1 = k then (k, v) else p)
  else l ++ [(k, v)]

/-- `if old in kwargs: kwargs[new] = kwargs.pop(old)`. -/
def popAssign (l : List (String × PyVal)) (old new : String) : List (String × PyVal) :=
  match alistLookup l old with
  | none => l
  | some v => alistSet (List.eraseP (fun p => p.1 == old) l) new v

/-- Lines 50-53 of `moderate`: the two reserved temporal aliases. -/
def renameKwargs (kw : List (String × PyVal)) : List (String × PyVal) :=
  popAssign (popAssign kw "since" "from") "until" "to"

/-- Lines 57-60 of `moderate`: stringify numeric keyword values. -/
def stringifyKwargs (kw : List (String × PyVal)) : List (String × PyVal) :=
  kw.map (fun p => (p.1, stringifyNum p.2))

/-- Lines 50-60 of `moderate`: full keyword normalization. -/
def moderateKwargs (kw : List (String × PyVal)) : List (String × PyVal) :=
  stringifyKwargs (renameKwargs kw)

/-- The mutable configuration surface of a `Context` (a
`requests.Session`): outbound headers and the plainly stored attributes.
Header names are used with consistent casing, so the case-insensitivity of
`requests` headers is not observable here. -/
structure ContextState where
  headers : List (String × String)
  attrs : List (String × String)
deriving DecidableEq, Repr

/-- `str.upper` / `str.lower` (ASCII model: the configuration values this
client validates are ASCII; CPython would additionally case-map non-ASCII
letters). -/
def pyUpper (s : String) : String := ⟨s.data.map Char.toUpper⟩

def pyLower (s : String) : String := ⟨s.data.map Char.toLower⟩

/-- `Context.__setattr__`: `token` updates the authorization header;
`timeformat` validates `value.upper()` against the enumeration before
updating the negotiation header; `type` validates `value.lower()`; the
final `super().__setattr__` stores the attribute.  A raise happens before
any mutation, so the returned state on error is the input state. -/
def contextSetattr (st : ContextState) (name value : String) :
    ContextState × Option PyError :=
  let step : ContextState × Option PyError :=
    if name = "token" then
      ({ st with headers := alistSet st.headers "Authorization" ("Bearer " ++ value) }, none)
    else if name = "timeformat" then
      if pyUpper value = "UNIX" ∨ pyUpper value = "RFC3339" then
        ({ st with headers := alistSet st.headers "Accept-Datetime-Format" (pyUpper value) }, none)
      else (st, some (.valueError ("incorrect time format: " ++ pyUpper value)))
    else if name = "type" ∧ ¬(pyLower value = "trade" ∨ pyLower value = "practice") then
      (st, some (.valueError ("incorrect trade environment: " ++ pyLower value)))
    else (st, none)
  match step with
  | (st1, none) => ({ st1 with attrs := alistSet st1.attrs name value }, none)
  | other => other

/-- `Context.hostname`. -/
def hostname : String := "https://\x7b\x7d.oanda.com/v3"

/-- Python `template.format(arg)` for a template holding exactly one
positional placeholder (the only shape `Context.url` uses): substitute the
argument for the first `\x7b\x7d` without rescanning the substituted text. -/
def formatChars : List Char → List Char → List Char
  | [], _ => []
  | c :: rest, arg =>
    if ("\x7b\x7d" : String).data.isPrefixOf (c :: rest) then arg ++ rest.tail
    else c :: formatChars rest arg

def pyFormatOne (template arg : String) : String :=
  ⟨formatChars template.data arg.data⟩

/-- `Context.url`: choose the streaming or standard subdomain template by
substring test on the endpoint, substitute the environment, append the
endpoint. -/
def Context.url (type endpoint : String) : String :=
  pyFormatOne
    (pyFormatOne hostname
      (if occursStr "stream" endpoint then "stream-fx\x7b\x7d" else "api-fx\x7b\x7d"))
    type ++ endpoint

/-- The `type` field of a decoded stream line, when the line is a mapping. -/
def lineTypeField : JValue → Option JValue
  | .jobj kvs => alistLookup kvs "type"
  | _ => none

/- Concrete fixtures used by witnesses and counterexamples. -/

/-- A rejected response whose body is valid JSON with no `errorMessage`. -/
def resp404 : PyResponse :=
  { status_code := 404,
    url := "https://api-fxtrade.oanda.com/v3/accounts/42/orders",
    method := "GET", reason := "Not Found", text := "\x7b\x7d",
    jsonBody := some (.jobj []) }

/-- A successful non-streaming response. -/
def respOk : PyResponse :=
  { status_code := 200,
    url := "https://api-fxtrade.oanda.com/v3/accounts/42/summary",
    method := "GET", reason := "OK",
    text := "\x7b\"balance\": \"100.0\"\x7d",
    jsonBody := some (.jobj [("balance", .jstr "100.0")]) }

/-- A successful streaming response (body consumed lazily, not decoded). -/
def respStream : PyResponse :=
  { status_code := 200,
    url := "https://stream-fxtrade.oanda.com/v3/accounts/42/pricing/stream",
    method := "GET", reason := "OK", text := "", jsonBody := none }

def priceLine1 : JValue := .jobj [("type", .jstr "PRICE"), ("instrument", .jstr "EUR_USD")]

def heartbeatLine : JValue := .jobj [("type", .jstr "HEARTBEAT")]

def priceLine2 : JValue := .jobj [("type", .jstr "PRICE"), ("instrument", .jstr "USD_JPY")]

/-- A three-line streamed body whose second line is a heartbeat. -/
def demoLines : List JValue := [priceLine1, heartbeatLine, priceLine2]

/-- A validly configured session state. -/
def ctx0 : ContextState :=
  { headers := [("Authorization", "Bearer abc"), ("Accept-Datetime-Format", "UNIX")],
    attrs := [("type", "practice"), ("token", "abc"), ("timeformat", "UNIX")] }

def demoArgs : List PyVal := [.vStr "EUR_USD", .vFloat "0.5", .vInt 17]

def demoKwargs : List (String × PyVal) :=
  [("count", .vInt 5), ("since", .vStr "1700000000"), ("smooth", .vBool false)]

/-- A well-formed nested JSON mapping (identifier keys, none reserved). -/
def demoJson : List (String × JValue) :=
  [("foo", .jobj [("bar", .jstr "ABC")]),
   ("xs", .jarr [.jobj [("baz", .jstr "DEF")], .jnum 3]),
   ("flag", .jbool true)]

/-! Association-list bookkeeping used by the keyword-normalization proofs. -/

theorem alistLookup_append {α : Type} (l1 l2 : List (String × α)) (k : String) :
    alistLookup (l1 ++ l2) k =
      (match alistLookup l1 k with
       | some v => some v
       | none => alistLookup l2 k) := by
  induction l1 with
  | nil => simp [alistLookup]
  | cons p rest ih =>
    obtain ⟨a, b⟩ := p
    by_cases hak : a = k <;> simp [alistLookup, hak, ih]

theorem alistLookup_map_value {α β : Type} (f : α → β) (l : List (String × α)) (k : String) :
    alistLookup (l.map (fun p => (p.1, f p.2))) k = (alistLookup l k).map f := by
  induction l with
  | nil => rfl
  | cons p rest ih =>
    obtain ⟨a, b⟩ := p
    by_cases hak : a = k <;> simp [alistLookup, hak, ih]

theorem alistLookup_eq_none_iff {α : Type} (l : List (String × α)) (k : String) :
    alistLookup l k = none ↔ k ∉ l.map Prod.fst := by
  induction l with
  | nil => simp [alistLookup]
  | cons p rest ih =>
    obtain ⟨a, b⟩ := p
    by_cases hak : a = k
    · subst hak; simp [alistLookup]
    · have hka : ¬ k = a := fun e => hak e.symm
      simp [alistLookup, hak, hka, ih]

theorem alistLookup_eraseP_self {α : Type} (l : List (String × α)) (k : String)
    (h : (l.map Prod.fst).Nodup) :
    alistLookup (List.eraseP (fun p => p.1 == k) l) k = none := by
  induction l with
  | nil => rfl
  | cons p rest ih =>
    obtain ⟨a, b⟩ := p
    simp only [List.map_cons, List.nodup_cons] at h
    by_cases hak : a = k
    · subst hak
      simp only [List.eraseP_cons, beq_self_eq_true, cond_true]
      exact (alistLookup_eq_none_iff _ _).mpr h.1
    · have hb : ((a, b).1 == k) = false := by simp [hak]
      simp only [List.eraseP_cons, hb, cond_false]
      simp [alistLookup, hak, ih h.2]

theorem alistLookup_eraseP_ne {α : Type} (l : List (String × α)) (k k' : String)
    (hk : k' ≠ k) :
    alistLookup (List.eraseP (fun p => p.1 == k) l) k' = alistLookup l k' := by
  induction l with
  | nil => rfl
  | cons p rest ih =>
    obtain ⟨a, b⟩ := p
    by_cases hak : a = k
    · have hb : ((a, b).1 == k) = true := by simp [hak]
      simp only [List.eraseP_cons, hb, cond_true]
      have hak' : a ≠ k' := by rw [hak]; exact fun e => hk e.symm
      simp [alistLookup, hak']
    · have hb : ((a, b).1 == k) = false := by simp [hak]
      simp only [List.eraseP_cons, hb, cond_false]
      by_cases hak' : a = k' <;> simp [alistLookup, hak', ih]

theorem alistLookup_alistSet_self {α : Type} (l : List (String × α)) (k : String) (v : α) :
    alistLookup (alistSet l k v) k = some v := by
  unfold alistSet
  by_cases h : l.any (fun p => p.1 == k) = true
  · rw [if_pos h]
    induction l with
    | nil => simp at h
    | cons p rest ih =>
      obtain ⟨a, b⟩ := p
      simp only [List.map_cons]
      by_cases hak : a = k
      · rw [if_pos (show (a, b).1 = k from hak)]
        simp [alistLookup]
      · rw [if_neg (show ¬ (a, b).1 = k from hak)]
        have h2 : rest.any (fun p => p.1 == k) = true := by simpa [hak] using h
        simp [alistLookup, hak, ih h2]
  · rw [if_neg h]
    have hnone : alistLookup l k = none := by
      rw [alistLookup_eq_none_iff]
      intro hmem
      apply h
      rw [List.any_eq_true]
      obtain ⟨p, hp, hfst⟩ := List.mem_map.mp hmem
      exact ⟨p, hp, by simp [hfst]⟩
    rw [alistLookup_append, hnone]
    simp [alistLookup]

theorem alistLookup_alistSet_ne {α : Type} (l : List (String × α)) (k k' : String) (v : α)
    (hk : k' ≠ k) :
    alistLookup (alistSet l k v) k' = alistLookup l k' := by
  unfold alistSet
  have hkk : ¬ k = k' := fun e => hk e.symm
  by_cases h : l.any (fun p => p.1 == k) = true
  · rw [if_pos h]
    clear h
    induction l with
    | nil => rfl
    | cons p rest ih =>
      obtain ⟨a, b⟩ := p
      simp only [List.map_cons]
      by_cases hak : a = k
      · have hak' : ¬ a = k' := by rw [hak]; exact hkk
        rw [if_pos (show (a, b).1 = k from hak)]
        simp [alistLookup, hak', hkk, ih]
      · rw [if_neg (show ¬ (a, b).1 = k from hak)]
        by_cases hak' : a = k' <;> simp [alistLookup, hak', ih]
  · rw [if_neg h, alistLookup_append]
    cases hl : alistLookup l k' <;> simp [alistLookup, hkk]

theorem nodup_keys_alistSet_of_absent {α : Type} (l : List (String × α)) (k : String) (v : α)
    (habs : alistLookup l k = none) (h : (l.map Prod.fst).Nodup) :
    ((alistSet l k v).map Prod.fst).Nodup := by
  unfold alistSet
  have hmem : k ∉ l.map Prod.fst := (alistLookup_eq_none_iff _ _).mp habs
  have hany : ¬ l.any (fun p => p.1 == k) = true := by
    rw [List.any_eq_true]
    rintro ⟨p, hp, hpk⟩
    exact hmem (List.mem_map.mpr ⟨p, hp, by simpa using hpk⟩)
  rw [if_neg hany]
  simp only [List.map_append, List.map_cons, List.map_nil]
  rw [List.nodup_append]
  exact ⟨h, List.nodup_singleton _, by simpa using hmem⟩

theorem nodup_keys_alistSet {α : Type} (l : List (String × α)) (k : String) (v : α)
    (h : (l.map Prod.fst).Nodup) :
    ((alistSet l k v).map Prod.fst).Nodup := by
  by_cases hany : l.any (fun p => p.1 == k) = true
  · have hkeys : (alistSet l k v).map Prod.fst = l.map Prod.fst := by
      unfold alistSet
      rw [if_pos hany, List.map_map]
      apply List.map_congr_left
      intro p hp
      by_cases hpk : p.1 = k
      · simp [Function.comp, hpk]
      · simp [Function.comp, hpk]
    rw [hkeys]
    exact h
  · have habs : alistLookup l k = none := by
      rw [alistLookup_eq_none_iff]
      intro hmem
      apply hany
      rw [List.any_eq_true]
      obtain ⟨p, hp, hfst⟩ := List.mem_map.mp hmem
      exact ⟨p, hp, by simp [hfst]⟩
    exact nodup_keys_alistSet_of_absent l k v habs h

theorem nodup_keys_eraseP {α : Type} (l : List (String × α)) (f : String × α → Bool)
    (h : (l.map Prod.fst).Nodup) :
    ((List.eraseP f l).map Prod.fst).Nodup :=
  h.sublist (List.Sublist.map _ (List.eraseP_sublist _))

theorem alistLookup_popAssign_ne (l : List (String × PyVal)) (old new k : String)
    (h1 : k ≠ old) (h2 : k ≠ new) :
    alistLookup (popAssign l old new) k = alistLookup l k := by
  unfold popAssign
  cases hl : alistLookup l old with
  | none => rfl
  | some v => rw [alistLookup_alistSet_ne _ _ _ _ h2, alistLookup_eraseP_ne _ _ _ h1]

theorem alistLookup_popAssign_old (l : List (String × PyVal)) (old new : String)
    (hnd : (l.map Prod.fst).Nodup) (hne : old ≠ new) :
    alistLookup (popAssign l old new) old = none := by
  unfold popAssign
  cases hl : alistLookup l old with
  | none => exact hl
  | some v =>
    rw [alistLookup_alistSet_ne _ _ _ _ hne]
    exact alistLookup_eraseP_self _ _ hnd

theorem nodup_keys_popAssign (l : List (String × PyVal)) (old new : String)
    (hnd : (l.map Prod.fst).Nodup) :
    ((popAssign l old new).map Prod.fst).Nodup := by
  unfold popAssign
  cases hl : alistLookup l old with
  | none => exact hnd
  | some v => exact nodup_keys_alistSet _ _ _ (nodup_keys_eraseP _ _ hnd)

theorem alistLookup_popAssign_new (l : List (String × PyVal)) (old new : String) (v : PyVal)
    (hl : alistLookup l old = some v) :
    alistLookup (popAssign l old new) new = some v := by
  unfold popAssign
  rw [hl, alistLookup_alistSet_self]

/-! Streamed line decoding. -/

theorem jsonlines_native (hb : Bool) (lines : List JValue)
    (h : ∀ l ∈ lines, l.isObj = true) :
    jsonlines true hb lines =
      .ok ((lines.filter
        (fun l => hb || !isHeartbeatVal (lineTypeField l))).map LineOut.native) := by
  induction lines with
  | nil => rfl
  | cons l rest ih =>
    have hl := h l (List.mem_cons_self _ _)
    have hrest := ih (fun x hx => h x (List.mem_cons_of_mem _ hx))
    cases l with
    | jobj kvs =>
      cases hb with
      | true => simp [jsonlines, hrest, lineTypeField]
      | false =>
        cases hhb : isHeartbeatVal (alistLookup kvs "type") <;>
          simp [jsonlines, hrest, lineTypeField, hhb]
    | jnull => simp [JValue.isObj] at hl
    | jbool b => simp [JValue.isObj] at hl
    | jnum n => simp [JValue.isObj] at hl
    | jstr s => simp [JValue.isObj] at hl
    | jarr xs => simp [JValue.isObj] at hl

/-- C4: for every streamed body, each line is decoded independently as one
JSON document and the decoded documents are yielded in original line order,
with exactly the lines whose `type` field equals `"HEARTBEAT"` skipped when
the heartbeat flag is false; in particular a three-line body whose second
line is a heartbeat yields two items with the flag false and three with the
flag true. -/
theorem C4_stream_line_decoding (lines : List JValue) (hb : Bool)
    (h : ∀ l ∈ lines, l.isObj = true) :
    jsonlines true hb lines =
      .ok ((lines.filter
        (fun l => hb || !isHeartbeatVal (lineTypeField l))).map LineOut.native) ∧
    jsonlines true false demoLines = .ok [.native priceLine1, .native priceLine2] ∧
    jsonlines true true demoLines =
      .ok [.native priceLine1, .native heartbeatLine, .native priceLine2] :=
  ⟨jsonlines_native hb lines h, rfl, rfl⟩

/-- Witness for C4 at the three-line demo body. -/
theorem C4_stream_line_decoding_witness :
    jsonlines true false demoLines =
      .ok ((demoLines.filter
        (fun l => false || !isHeartbeatVal (lineTypeField l))).map LineOut.native) :=
  (C4_stream_line_decoding demoLines false (by decide)).1

/-- C9: URL resolution selects the streaming host template exactly when the
endpoint contains the substring `stream`, substitutes the environment
identically in both cases, and appends the versioned endpoint path. -/
theorem C9_host_resolution (type endpoint : String) :
    Context.url type endpoint =
      (if occursStr "stream" endpoint
       then "https://stream-fx" ++ type ++ ".oanda.com/v3" ++ endpoint
       else "https://api-fx" ++ type ++ ".oanda.com/v3" ++ endpoint) := by
  cases h : occursStr "stream" endpoint <;>
    · apply String.ext
      simp [Context.url, h, pyFormatOne, hostname, String.data_append, formatChars,
        List.isPrefixOf]

/-- C8 counterexample: assigning the string `'unix'` to the time-format
field succeeds (no error is raised) although `'unix'` is outside the
enumeration `{'UNIX', 'RFC3339'}`: the validation uppercases the value
first. -/
theorem C8_counterexample :
    (contextSetattr ctx0 "timeformat" "unix").2 = none ∧
    (["UNIX", "RFC3339"] : List String).contains "unix" = false :=
  ⟨rfl, rfl⟩

/-- C8 (amended): for every session state and every value whose uppercasing
is outside `{'UNIX', 'RFC3339'}` (resp. whose lowercasing is outside
`{'trade', 'practice'}`), assigning it to the time-format (resp.
environment) field raises the configuration `ValueError` and returns with
the stored fields and outbound headers unchanged. -/
theorem C8_amended_config_validation :
    (∀ (st : ContextState) (v : String), pyUpper v ≠ "UNIX" → pyUpper v ≠ "RFC3339" →
      contextSetattr st "timeformat" v =
        (st, some (.valueError ("incorrect time format: " ++ pyUpper v)))) ∧
    (∀ (st : ContextState) (v : String), pyLower v ≠ "trade" → pyLower v ≠ "practice" →
      contextSetattr st "type" v =
        (st, some (.valueError ("incorrect trade environment: " ++ pyLower v)))) := by
  constructor <;> (intro st v h1 h2; simp [contextSetattr, h1, h2])

/-- Witness for C8 at concrete out-of-enumeration values. -/
theorem C8_amended_witness :
    contextSetattr ctx0 "timeformat" "ISO8601" =
      (ctx0, some (.valueError ("incorrect time format: " ++ pyUpper "ISO8601"))) ∧
    contextSetattr ctx0 "type" "demo" =
      (ctx0, some (.valueError ("incorrect trade environment: " ++ pyLower "demo"))) :=
  ⟨C8_amended_config_validation.1 ctx0 "ISO8601" (by decide) (by decide),
   C8_amended_config_validation.2 ctx0 "demo" (by decide) (by decide)⟩

/-- C1 (code-bug evidence): a 404 response whose body is valid JSON with no
`errorMessage` field makes the middleware raise `UnboundLocalError` (the
`AttributeError` from the missing field is not caught — only
`json.decoder.JSONDecodeError` is — and the `finally` block then reads the
unbound local `message`), not the documented `APIError`. -/
theorem C1_missing_errorMessage_outcome :
    moderateRespond true resp404 = .raisedOther .unboundLocalError := rfl

/-- C3: for a successful (200/201) response, the middleware returns the
materialized attribute-addressable body exactly when the session unpacks
and the final URL does not contain `stream`; otherwise — in particular for
every streaming URL regardless of the unpack flag — it returns the envelope
itself. -/
theorem C3_unwrap_policy (unpack : Bool) (r : PyResponse)
    (hs : r.status_code = 200 ∨ r.status_code = 201) :
    (∀ w, unpack = true → occursStr "stream" r.url = false →
      APIResponse.json r = .ok w → moderateRespond unpack r = .ok (.body w)) ∧
    (unpack = false ∨ occursStr "stream" r.url = true →
      moderateRespond unpack r = .ok (.envelope r)) := by
  unfold moderateRespond
  rw [if_neg (not_not_intro hs)]
  constructor
  · intro w hu hstream hjson
    simp [hu, hstream, hjson]
  · rintro (h | h) <;> simp [h]

/-- Witness for C3: an unpacked non-streaming success returns the wrapped
body; a streaming success returns the envelope. -/
theorem C3_unwrap_policy_witness :
    moderateRespond true respOk = .ok (.body (.wdict [("balance", .wstr "100.0")])) ∧
    moderateRespond true respStream = .ok (.envelope respStream) :=
  ⟨(C3_unwrap_policy true respOk (by decide)).1 (.wdict [("balance", .wstr "100.0")])
      rfl (by decide) rfl,
   (C3_unwrap_policy true respStream (by decide)).2 (Or.inr (by decide))⟩

/-- C10: booleans are integer instances, so the numeric-stringification
step converts a boolean positional or keyword argument to the text `True`
or `False` — never a native boolean and never lowercase `true`/`false`. -/
theorem C10_bool_arguments :
    (∀ b : Bool, (PyVal.vBool b).isNumericInstance = true) ∧
    (∀ b : Bool, stringifyNum (.vBool b) = .vStr (if b then "True" else "False")) ∧
    (∀ (args : List PyVal) (i : Nat) (b : Bool), args[i]? = some (.vBool b) →
      (moderateArgs args)[i]? = some (.vStr (if b then "True" else "False"))) ∧
    (∀ (kw : List (String × PyVal)) (k : String) (b : Bool),
      alistLookup kw k = some (.vBool b) →
      alistLookup (stringifyKwargs kw) k = some (.vStr (if b then "True" else "False"))) ∧
    (∀ b : Bool, (stringifyNum (.vBool b) == PyVal.vBool b) = false ∧
      (stringifyNum (.vBool b) == PyVal.vStr "true") = false ∧
      (stringifyNum (.vBool b) == PyVal.vStr "false") = false) := by
  refine ⟨fun b => rfl, fun b => by cases b <;> rfl, ?_, ?_, fun b => by cases b <;> exact ⟨rfl, rfl, rfl⟩⟩
  · intro args i b hv
    rw [moderateArgs, List.getElem?_map, hv]
    cases b <;> rfl
  · intro kw k b hv
    rw [stringifyKwargs, alistLookup_map_value, hv]
    cases b <;> rfl

/-! Scanner lemmas for the redaction proofs.  The fuel arguments of
`pyReplaceGo` and `redactGo` are irrelevant above the input length, giving
cons-level unfolding equations for `pyReplace` and `redactSub`. -/

theorem accPreHeadA (c : Char) (rest : List Char)
    (h : ("accounts/" : String).data.isPrefixOf (c :: rest) = true) : c = 'a' := by
  have hd : ("accounts/" : String).data = 'a' :: ("ccounts/" : String).data := by decide
  rw [hd] at h
  simp only [List.isPrefixOf, Bool.and_eq_true, beq_iff_eq] at h
  exact h.1.symm

theorem redact_skip_cond (c : Char) (rest : List Char)
    (hc : ("accounts/" : String).data.isPrefixOf (c :: rest) = false) :
    redactSub (c :: rest) = c :: redactSub rest := by
  unfold redactSub
  simp only [List.length_cons, redactGo, hc, Bool.false_eq_true, if_false]

theorem redact_skip (c : Char) (rest : List Char) (h : c ≠ 'a') :
    redactSub (c :: rest) = c :: redactSub rest := by
  apply redact_skip_cond
  cases hp : ("accounts/" : String).data.isPrefixOf (c :: rest) with
  | false => rfl
  | true => exact absurd (accPreHeadA c rest hp) h

theorem redactRun (pre rest : List Char) (h : ∀ c ∈ pre, c ≠ 'a') :
    redactSub (pre ++ rest) = pre ++ redactSub rest := by
  induction pre with
  | nil => simp
  | cons c cs ih =>
    rw [List.cons_append, redact_skip c _ (h c (List.mem_cons_self _ _)),
      ih (fun x hx => h x (List.mem_cons_of_mem _ hx))]
    rfl

theorem redactId (l : List Char) (h : ∀ c ∈ l, c ≠ 'a') : redactSub l = l := by
  have h2 := redactRun l [] h
  simpa [show redactSub ([] : List Char) = [] from rfl] using h2

theorem isPre_length_le (s x : List Char) (h : s.isPrefixOf x = true) :
    s.length ≤ x.length := by
  induction s generalizing x with
  | nil => simp
  | cons a as ih =>
    cases x with
    | nil => simp [List.isPrefixOf] at h
    | cons b bs =>
      simp only [List.isPrefixOf, Bool.and_eq_true] at h
      simp only [List.length_cons]
      exact Nat.succ_le_succ (ih bs h.2)

theorem exceptMap_eq_ok_iff {α β γ : Type} (f : β → γ) (x : Except α β) (c : γ) :
    x.map f = .ok c ↔ ∃ b, x = .ok b ∧ c = f b := by
  cases x <;> simp [Except.map, eq_comm]

theorem badKeyMsg_mem (k : String) (m : String) (h : badKeyMsg k = some m) :
    m = "key name equal to dict attribute" ∨ m = "key name is not a valid identifier" := by
  unfold badKeyMsg at h
  split at h
  · exact Or.inl (Option.some_injective _ h).symm
  · split at h
    · exact Or.inr (Option.some_injective _ h).symm
    · exact absurd h (by simp)

mutual

theorem unwrap_wrapValue (v : JValue) (w : WVal) (h : wrapValue v = .ok w) :
    unwrapW w = v := by
  cases v with
  | jnull => simp only [wrapValue, Except.ok.injEq] at h; subst h; rfl
  | jbool b => simp only [wrapValue, Except.ok.injEq] at h; subst h; rfl
  | jnum n => simp only [wrapValue, Except.ok.injEq] at h; subst h; rfl
  | jstr s => simp only [wrapValue, Except.ok.injEq] at h; subst h; rfl
  | jarr xs =>
    rw [show wrapValue (.jarr xs) = (wrapList xs).map .wlist from rfl] at h
    rcases (exceptMap_eq_ok_iff _ _ _).mp h with ⟨es, hes, rfl⟩
    simp only [unwrapW]
    rw [unwrap_wrapList xs es hes]
  | jobj kvs =>
    rw [show wrapValue (.jobj kvs) = (wrapPairs kvs).map .wdict from rfl] at h
    rcases (exceptMap_eq_ok_iff _ _ _).mp h with ⟨ws, hws, rfl⟩
    simp only [unwrapW]
    rw [unwrap_wrapPairs kvs ws hws]

theorem unwrap_wrapList (xs : List JValue) (es : List WElem) (h : wrapList xs = .ok es) :
    unwrapList es = xs := by
  cases xs with
  | nil => simp only [wrapList, Except.ok.injEq] at h; subst h; rfl
  | cons x rest =>
    simp only [wrapList, bind, Except.bind] at h
    cases he : wrapElem x with
    | error e => rw [he] at h; exact absurd h (by simp)
    | ok e =>
      rw [he] at h
      cases hr : wrapList rest with
      | error e2 => rw [hr] at h; exact absurd h (by simp)
      | ok es2 =>
        rw [hr] at h
        simp only [pure, Except.pure, Except.ok.injEq] at h
        subst h
        simp only [unwrapList]
        rw [unwrap_wrapElem x e he, unwrap_wrapList rest es2 hr]

theorem unwrap_wrapElem (x : JValue) (e : WElem) (h : wrapElem x = .ok e) :
    unwrapElem e = x := by
  cases x with
  | jobj kvs =>
    rw [show wrapElem (.jobj kvs) = (wrapPairs kvs).map .wrapped from rfl] at h
    rcases (exceptMap_eq_ok_iff _ _ _).mp h with ⟨ws, hws, rfl⟩
    simp only [unwrapElem]
    rw [unwrap_wrapPairs kvs ws hws]
  | jnull => simp only [wrapElem, Except.ok.injEq] at h; subst h; rfl
  | jbool b => simp only [wrapElem, Except.ok.injEq] at h; subst h; rfl
  | jnum n => simp only [wrapElem, Except.ok.injEq] at h; subst h; rfl
  | jstr s => simp only [wrapElem, Except.ok.injEq] at h; subst h; rfl
  | jarr ys => simp only [wrapElem, Except.ok.injEq] at h; subst h; rfl

theorem unwrap_wrapPairs (kvs : List (String × JValue)) (out : List (String × WVal))
    (h : wrapPairs kvs = .ok out) : unwrapPairs out = kvs := by
  cases kvs with
  | nil => simp only [wrapPairs, Except.ok.injEq] at h; subst h; rfl
  | cons p rest =>
    obtain ⟨k, v⟩ := p
    simp only [wrapPairs] at h
    cases hbk : badKeyMsg k with
    | some m => rw [hbk] at h; exact absurd h (by simp)
    | none =>
      rw [hbk] at h
      simp only [bind, Except.bind] at h
      cases hw : wrapValue v with
      | error e => rw [hw] at h; exact absurd h (by simp)
      | ok w =>
        rw [hw] at h
        cases hr : wrapPairs rest with
        | error e2 => rw [hr] at h; exact absurd h (by simp)
        | ok ws =>
          rw [hr] at h
          simp only [pure, Except.pure, Except.ok.injEq] at h
          subst h
          simp only [unwrapPairs]
          rw [unwrap_wrapValue v w hw, unwrap_wrapPairs rest ws hr]

end

mutual

theorem wrapValue_status (v : JValue) :
    (hasBadV v = false → ∃ w, wrapValue v = .ok w) ∧
    (hasBadV v = true → ∃ m, wrapValue v = .error (.attributeError m) ∧
      (m = "key name equal to dict attribute" ∨ m = "key name is not a valid identifier")) := by
  cases v with
  | jnull => exact ⟨fun _ => ⟨.wnull, rfl⟩, fun h => by simp [hasBadV] at h⟩
  | jbool b => exact ⟨fun _ => ⟨.wbool b, rfl⟩, fun h => by simp [hasBadV] at h⟩
  | jnum n => exact ⟨fun _ => ⟨.wnum n, rfl⟩, fun h => by simp [hasBadV] at h⟩
  | jstr s => exact ⟨fun _ => ⟨.wstr s, rfl⟩, fun h => by simp [hasBadV] at h⟩
  | jarr xs =>
    refine ⟨fun h => ?_, fun h => ?_⟩
    · obtain ⟨es, hes⟩ := (wrapList_status xs).1 (by simpa [hasBadV] using h)
      refine ⟨.wlist es, ?_⟩
      rw [show wrapValue (.jarr xs) = (wrapList xs).map .wlist from rfl, hes]
      rfl
    · obtain ⟨m, hm, hmem⟩ := (wrapList_status xs).2 (by simpa [hasBadV] using h)
      refine ⟨m, ?_, hmem⟩
      rw [show wrapValue (.jarr xs) = (wrapList xs).map .wlist from rfl, hm]
      rfl
  | jobj kvs =>
    refine ⟨fun h => ?_, fun h => ?_⟩
    · obtain ⟨ws, hws⟩ := (wrapPairs_status kvs).1 (by simpa [hasBadV] using h)
      refine ⟨.wdict ws, ?_⟩
      rw [show wrapValue (.jobj kvs) = (wrapPairs kvs).map .wdict from rfl, hws]
      rfl
    · obtain ⟨m, hm, hmem⟩ := (wrapPairs_status kvs).2 (by simpa [hasBadV] using h)
      refine ⟨m, ?_, hmem⟩
      rw [show wrapValue (.jobj kvs) = (wrapPairs kvs).map .wdict from rfl, hm]
      rfl

theorem wrapList_status (xs : List JValue) :
    (hasBadL xs = false → ∃ es, wrapList xs = .ok es) ∧
    (hasBadL xs = true → ∃ m, wrapList xs = .error (.attributeError m) ∧
      (m = "key name equal to dict attribute" ∨ m = "key name is not a valid identifier")) := by
  cases xs with
  | nil => exact ⟨fun _ => ⟨[], rfl⟩, fun h => by simp [hasBadL] at h⟩
  | cons x rest =>
    refine ⟨fun h => ?_, fun h => ?_⟩
    · rw [show hasBadL (x :: rest) = (hasBadE x || hasBadL rest) from rfl] at h
      simp only [Bool.or_eq_false_iff] at h
      obtain ⟨e, he⟩ := (wrapElem_status x).1 h.1
      obtain ⟨es, hes⟩ := (wrapList_status rest).1 h.2
      exact ⟨e :: es, by simp only [wrapList, bind, Except.bind, he, hes, pure, Except.pure]⟩
    · rw [show hasBadL (x :: rest) = (hasBadE x || hasBadL rest) from rfl] at h
      cases hx : hasBadE x with
      | true =>
        obtain ⟨m, hm, hmem⟩ := (wrapElem_status x).2 hx
        exact ⟨m, by simp only [wrapList, bind, Except.bind, hm], hmem⟩
      | false =>
        obtain ⟨e, he⟩ := (wrapElem_status x).1 hx
        obtain ⟨m, hm, hmem⟩ := (wrapList_status rest).2 (by simpa [hx] using h)
        exact ⟨m, by simp only [wrapList, bind, Except.bind, he, hm], hmem⟩

theorem wrapElem_status (x : JValue) :
    (hasBadE x = false → ∃ e, wrapElem x = .ok e) ∧
    (hasBadE x = true → ∃ m, wrapElem x = .error (.attributeError m) ∧
      (m = "key name equal to dict attribute" ∨ m = "key name is not a valid identifier")) := by
  cases x with
  | jobj kvs =>
    refine ⟨fun h => ?_, fun h => ?_⟩
    · obtain ⟨ws, hws⟩ := (wrapPairs_status kvs).1 (by simpa [hasBadE] using h)
      refine ⟨.wrapped ws, ?_⟩
      rw [show wrapElem (.jobj kvs) = (wrapPairs kvs).map .wrapped from rfl, hws]
      rfl
    · obtain ⟨m, hm, hmem⟩ := (wrapPairs_status kvs).2 (by simpa [hasBadE] using h)
      refine ⟨m, ?_, hmem⟩
      rw [show wrapElem (.jobj kvs) = (wrapPairs kvs).map .wrapped from rfl, hm]
      rfl
  | jnull => exact ⟨fun _ => ⟨.raw .jnull, rfl⟩, fun h => by simp [hasBadE] at h⟩
  | jbool b => exact ⟨fun _ => ⟨.raw (.jbool b), rfl⟩, fun h => by simp [hasBadE] at h⟩
  | jnum n => exact ⟨fun _ => ⟨.raw (.jnum n), rfl⟩, fun h => by simp [hasBadE] at h⟩
  | jstr s => exact ⟨fun _ => ⟨.raw (.jstr s), rfl⟩, fun h => by simp [hasBadE] at h⟩
  | jarr ys => exact ⟨fun _ => ⟨.raw (.jarr ys), rfl⟩, fun h => by simp [hasBadE] at h⟩

theorem wrapPairs_status (kvs : List (String × JValue)) :
    (hasBadO kvs = false → ∃ ws, wrapPairs kvs = .ok ws) ∧
    (hasBadO kvs = true → ∃ m, wrapPairs kvs = .error (.attributeError m) ∧
      (m = "key name equal to dict attribute" ∨ m = "key name is not a valid identifier")) := by
  cases kvs with
  | nil => exact ⟨fun _ => ⟨[], rfl⟩, fun h => by simp [hasBadO] at h⟩
  | cons p rest =>
    obtain ⟨k, v⟩ := p
    have hunf : hasBadO ((k, v) :: rest) =
        ((badKeyMsg k).isSome || hasBadV v || hasBadO rest) := rfl
    cases hbk : badKeyMsg k with
    | some m =>
      refine ⟨fun h => ?_, fun _ => ?_⟩
      · rw [hunf, hbk] at h; simp at h
      · exact ⟨m, by simp only [wrapPairs, hbk], badKeyMsg_mem k m hbk⟩
    | none =>
      refine ⟨fun h => ?_, fun h => ?_⟩
      · rw [hunf, hbk] at h
        simp only [Option.isSome_none, Bool.false_or, Bool.or_eq_false_iff] at h
        obtain ⟨w, hw⟩ := (wrapValue_status v).1 h.1
        obtain ⟨ws, hws⟩ := (wrapPairs_status rest).1 h.2
        exact ⟨(k, w) :: ws,
          by simp only [wrapPairs, hbk, bind, Except.bind, hw, hws, pure, Except.pure]⟩
      · rw [hunf, hbk] at h
        simp only [Option.isSome_none, Bool.false_or] at h
        cases hv : hasBadV v with
        | true =>
          obtain ⟨m, hm, hmem⟩ := (wrapValue_status v).2 hv
          exact ⟨m, by simp only [wrapPairs, hbk, bind, Except.bind, hm], hmem⟩
        | false =>
          obtain ⟨w, hw⟩ := (wrapValue_status v).1 hv
          obtain ⟨m, hm, hmem⟩ := (wrapPairs_status rest).2 (by simpa [hv] using h)
          exact ⟨m, by simp only [wrapPairs, hbk, bind, Except.bind, hw, hm], hmem⟩

end

theorem wrapPairs_alistLookup (kvs : List (String × JValue)) (out : List (String × WVal))
    (hw : wrapPairs kvs = .ok out) :
    ∀ k v, alistLookup kvs k = some v →
      ∃ w, alistLookup out k = some w ∧ wrapValue v = .ok w := by
  induction kvs generalizing out with
  | nil => intro k v h; simp [alistLookup] at h
  | cons p rest ih =>
    obtain ⟨k', v'⟩ := p
    simp only [wrapPairs] at hw
    cases hbk : badKeyMsg k' with
    | some m => rw [hbk] at hw; exact absurd hw (by simp)
    | none =>
      rw [hbk] at hw
      simp only [bind, Except.bind] at hw
      cases hwv : wrapValue v' with
      | error e => rw [hwv] at hw; exact absurd hw (by simp)
      | ok w =>
        rw [hwv] at hw
        cases hwr : wrapPairs rest with
        | error e2 => rw [hwr] at hw; exact absurd hw (by simp)
        | ok ws =>
          rw [hwr] at hw
          simp only [pure, Except.pure, Except.ok.injEq] at hw
          subst hw
          intro k v h
          by_cases hkk : k' = k
          · subst hkk
            have h2 : v' = v := by simpa [alistLookup] using h
            subst h2
            exact ⟨w, by simp [alistLookup], hwv⟩
          · simp only [alistLookup, if_neg hkk] at h ⊢
            exact ih ws hwr k v h

/-- C6: wrapping a JSON mapping whose keys (at every position the recursion
reaches) are valid unreserved identifiers succeeds, member access returns
every key's value, and reading back is the identity: nested mappings are
wrapped, list elements keep their order with only the mapping-typed ones
wrapped, and all non-mapping elements pass through untouched. -/
theorem C6_attribute_roundtrip (kvs : List (String × JValue))
    (h : hasBadV (.jobj kvs) = false) :
    ∃ out, AttributeDictionary.ofJson (.jobj kvs) = .ok (.wdict out) ∧
      unwrapW (.wdict out) = .jobj kvs ∧
      (∀ k v, alistLookup kvs k = some v →
        ∃ w, (WVal.wdict out).getattr k = some w ∧ unwrapW w = v) ∧
      (∀ x : JValue, x.isObj = false → wrapElem x = .ok (.raw x)) := by
  obtain ⟨ws, hws⟩ := (wrapPairs_status kvs).1 (by simpa [hasBadV] using h)
  refine ⟨ws, ?_, ?_, ?_, ?_⟩
  · rw [show AttributeDictionary.ofJson (.jobj kvs) = (wrapPairs kvs).map .wdict from rfl, hws]
    rfl
  · have := unwrap_wrapPairs kvs ws hws
    simp only [unwrapW, this]
  · intro k v hkv
    obtain ⟨w, hlook, hwrap⟩ := wrapPairs_alistLookup kvs ws hws k v hkv
    exact ⟨w, hlook, unwrap_wrapValue v w hwrap⟩
  · intro x hx
    cases x <;> first | rfl | simp [JValue.isObj] at hx

/-- Witness for C6 at a concrete nested document. -/
theorem C6_attribute_roundtrip_witness :
    ∃ out, AttributeDictionary.ofJson (.jobj demoJson) = .ok (.wdict out) ∧
      unwrapW (.wdict out) = .jobj demoJson ∧
      (∀ k v, alistLookup demoJson k = some v →
        ∃ w, (WVal.wdict out).getattr k = some w ∧ unwrapW w = v) ∧
      (∀ x : JValue, x.isObj = false → wrapElem x = .ok (.raw x)) :=
  C6_attribute_roundtrip demoJson (by decide)

/-- C7: wrapping a mapping that contains — at any position the wrapping
recursion reaches — a non-identifier key or a key colliding with the `dict`
attribute surface fails with the corresponding descriptive
`AttributeError` instead of coercing or skipping the key. -/
theorem C7_bad_key_failure (kvs : List (String × JValue))
    (h : hasBadV (.jobj kvs) = true) :
    ∃ m, AttributeDictionary.ofJson (.jobj kvs) = .error (.attributeError m) ∧
      (m = "key name equal to dict attribute" ∨ m = "key name is not a valid identifier") := by
  obtain ⟨m, hm, hmem⟩ := (wrapPairs_status kvs).2 (by simpa [hasBadV] using h)
  refine ⟨m, ?_, hmem⟩
  rw [show AttributeDictionary.ofJson (.jobj kvs) = (wrapPairs kvs).map .wdict from rfl, hm]
  rfl

/-- Witness for C7: the reserved key `items` and the non-identifier key
`123`, also nested below a valid key. -/
theorem C7_bad_key_failure_witness :
    (∃ m, AttributeDictionary.ofJson (.jobj [("items", .jnull)]) =
      .error (.attributeError m) ∧
      (m = "key name equal to dict attribute" ∨ m = "key name is not a valid identifier")) ∧
    (∃ m, AttributeDictionary.ofJson
        (.jobj [("outer", .jobj [("123", .jstr "x")])]) = .error (.attributeError m) ∧
      (m = "key name equal to dict attribute" ∨ m = "key name is not a valid identifier")) :=
  ⟨C7_bad_key_failure [("items", .jnull)] (by decide),
   C7_bad_key_failure [("outer", .jobj [("123", .jstr "x")])] (by decide)⟩

/-- C2: the middleware renames `since`→`from` and `until`→`to`, replaces
every numeric (integer or floating-point, hence also boolean) positional
and keyword argument by its `str` text, and leaves all other arguments
unchanged.  Keyword maps are Python dicts, hence the distinct-keys
hypothesis; a pre-existing `from`/`to` key (impossible from a Python call
site, where they are reserved words) would simply be overwritten by the
renamed value, so no further hypothesis is needed. -/
theorem C2_argument_normalization (args : List PyVal) (kw : List (String × PyVal))
    (hnd : (kw.map Prod.fst).Nodup) :
    (∀ (i : Nat) (v : PyVal), args[i]? = some v →
      (v.isNumericInstance = true → (moderateArgs args)[i]? = some (.vStr (pyStr v))) ∧
      (v.isNumericInstance = false → (moderateArgs args)[i]? = some v)) ∧
    alistLookup (moderateKwargs kw) "since" = none ∧
    alistLookup (moderateKwargs kw) "until" = none ∧
    (∀ v, alistLookup kw "since" = some v →
      alistLookup (moderateKwargs kw) "from" = some (stringifyNum v)) ∧
    (∀ v, alistLookup kw "until" = some v →
      alistLookup (moderateKwargs kw) "to" = some (stringifyNum v)) ∧
    (∀ k v, k ≠ "since" → k ≠ "until" → k ≠ "from" → k ≠ "to" →
      alistLookup kw k = some v →
      alistLookup (moderateKwargs kw) k = some (stringifyNum v)) := by
  have hnd1 : (((popAssign kw "since" "from").map Prod.fst)).Nodup :=
    nodup_keys_popAssign kw "since" "from" hnd
  refine ⟨?_, ?_, ?_, ?_, ?_, ?_⟩
  · intro i v hv
    constructor <;> intro hn <;>
      simp [moderateArgs, List.getElem?_map, hv, stringifyNum, hn]
  · rw [moderateKwargs, stringifyKwargs, alistLookup_map_value, renameKwargs,
      alistLookup_popAssign_ne _ _ _ _ (by decide) (by decide),
      alistLookup_popAssign_old kw "since" "from" hnd (by decide)]
    rfl
  · rw [moderateKwargs, stringifyKwargs, alistLookup_map_value, renameKwargs,
      alistLookup_popAssign_old _ "until" "to" hnd1 (by decide)]
    rfl
  · intro v hv
    rw [moderateKwargs, stringifyKwargs, alistLookup_map_value, renameKwargs,
      alistLookup_popAssign_ne _ _ _ _ (by decide) (by decide),
      alistLookup_popAssign_new kw "since" "from" v hv]
    rfl
  · intro v hv
    have hv1 : alistLookup (popAssign kw "since" "from") "until" = some v := by
      rw [alistLookup_popAssign_ne _ _ _ _ (by decide) (by decide)]
      exact hv
    rw [moderateKwargs, stringifyKwargs, alistLookup_map_value, renameKwargs,
      alistLookup_popAssign_new _ "until" "to" v hv1]
    rfl
  · intro k v hks hku hkf hkt hv
    rw [moderateKwargs, stringifyKwargs, alistLookup_map_value, renameKwargs,
      alistLookup_popAssign_ne _ _ _ _ hku hkt,
      alistLookup_popAssign_ne _ _ _ _ hks hkf, hv]
    rfl

/-- Witness for C2 at a concrete call. -/
theorem C2_argument_normalization_witness :
    alistLookup (moderateKwargs demoKwargs) "from" =
      some (stringifyNum (.vStr "1700000000")) ∧
    (moderateArgs demoArgs)[1]? = some (.vStr (pyStr (.vFloat "0.5"))) := by
  have h := C2_argument_normalization demoArgs demoKwargs (by decide)
  exact ⟨h.2.2.2.1 (.vStr "1700000000") (by decide),
    (h.1 1 (.vFloat "0.5") (by decide)).1 (by decide)⟩

/-- Witness for C10: `snapshot=True` and a positional `False` stringify to
`'True'` / `'False'`. -/
theorem C10_bool_arguments_witness :
    (moderateArgs [.vStr "EUR_USD", .vBool false])[1]? =
      some (.vStr (if false then "True" else "False")) ∧
    alistLookup (stringifyKwargs [("snapshot", .vBool true)]) "snapshot" =
      some (.vStr (if true then "True" else "False")) :=
  ⟨C10_bool_arguments.2.2.1 [.vStr "EUR_USD", .vBool false] 1 false rfl,
   C10_bool_arguments.2.2.2.1 [("snapshot", .vBool true)] "snapshot" true rfl⟩

end Oanda
